import Mathlib

/-!
Verification development for the backend-code generation platform
(NLP-Group4/Prosit2).  Python modules are shallowly embedded: pure
functions become Lean functions over `String` / `List Char` / `Nat`,
external effects (database rows, LLM calls, regex-pattern oracles)
become explicit parameters.  Each embedded definition cites the source
file and lines it is translated from.
-/

/-! ### Generic character-list helpers

Python `str.strip()` removes the whitespace characters space, tab,
newline, carriage return, vertical tab and form feed from both ends;
`\S` in Python regexes (ASCII view of the traceback logs) excludes the
same set. -/

/-- Whitespace test matching Python `str.strip()` / regex `\s` on ASCII text. -/
def isSpaceChar (c : Char) : Bool :=
  c == ' ' || c == '\t' || c == '\n' || c == '\r' || c == '\x0b' || c == '\x0c'

/-- Python `str.strip()` on a character list: drop whitespace from both ends. -/
def stripChars (l : List Char) : List Char :=
  ((l.dropWhile isSpaceChar).reverse.dropWhile isSpaceChar).reverse

/-- Does the text (second argument) start with the pattern (first argument)? -/
def startsWithChars : List Char → List Char → Bool
  | [], _ => true
  | _ :: _, [] => false
  | p :: ps, c :: cs => p == c && startsWithChars ps cs

/-- Does the text contain the pattern as a contiguous substring? -/
def containsSub (pat : List Char) : List Char → Bool
  | [] => startsWithChars pat []
  | c :: cs => startsWithChars pat (c :: cs) || containsSub pat cs

/-! ### Model registry — `src/backend/agents/model_registry.py` -/

/-- Metadata for a single LLM model (`ModelInfo`, model_registry.py lines 14-22). -/
structure ModelInfo where
  id : String
  name : String
  provider : String
  tier : String
  description : String
  fallback : Option String
deriving DecidableEq

/-- The static model catalog (`MODELS`, model_registry.py lines 29-54),
as an association list from model id to `ModelInfo`. -/
def MODELS : List (String × ModelInfo) :=
  [ ("gemini-2.0-flash",
      { id := "gemini-2.0-flash", name := "Gemini 2.0 Flash", provider := "google",
        tier := "free",
        description := "Always-free model with generous rate limits. Best for reliability.",
        fallback := some "gemini-2.5-flash" }),
    ("gemini-2.5-flash",
      { id := "gemini-2.5-flash", name := "Gemini 2.5 Flash", provider := "google",
        tier := "free",
        description := "Fast and capable. Free tier with moderate rate limits.",
        fallback := some "gemini-2.5-pro" }),
    ("gemini-2.5-pro",
      { id := "gemini-2.5-pro", name := "Gemini 2.5 Pro", provider := "google",
        tier := "free",
        description := "Most capable model. Free tier with strict rate limits.",
        fallback := none }) ]

/-- Default model id (`DEFAULT_MODEL`, model_registry.py line 56). -/
def DEFAULT_MODEL : String := "gemini-2.0-flash"

/-- Registry keys, in catalog order. -/
def modelKeys : List String := MODELS.map Prod.fst

/-- Dictionary lookup `MODELS[model_id]` (`None` when absent). -/
def getModel (model_id : String) : Option ModelInfo :=
  (MODELS.find? (fun p => p.fst == model_id)).map Prod.snd

/-- One step bookkeeping for the `while` loop of `get_fallback_chain`
(model_registry.py lines 76-87).  The Python loop runs
`while current and current not in visited`, breaks when the id is not
registered, otherwise records the id and follows the `fallback` link.
The `fuel` argument bounds the iteration count; `get_fallback_chain`
supplies `MODELS.length + 1`, which is proven sufficient below (the
loop adds a fresh registered id to `visited` on every iteration). -/
def chainLoop : Nat → Option String → List String → List String → List String
  | 0, _, _, chain => chain
  | Nat.succ fuel, current, visited, chain =>
    match current with
    | none => chain
    | some c =>
      if c = "" then chain
      else if c ∈ visited then chain
      else
        match getModel c with
        | none => chain
        | some m => chainLoop fuel m.fallback (c :: visited) (chain ++ [c])

/-- `get_fallback_chain` (model_registry.py lines 69-87). -/
def get_fallback_chain (model_id : String) : List String :=
  chainLoop (MODELS.length + 1) (some model_id) [] []

/-- Registry keys not yet visited — the loop variant of `chainLoop`. -/
def freeKeys (visited : List String) : List String :=
  modelKeys.filter (fun k => decide (¬ k ∈ visited))

/-! ### Prompt-to-spec fallback walk — `src/backend/agents/prompt_to_spec.py`

`generate_spec_from_prompt` (lines 207-263) walks the fallback chain:
it tries each model in order, returns the first success paired with the
model id, and after every chain element has failed (or when the chain
is empty) raises `ValueError("All models in fallback chain failed...")`.
The per-model attempt (an LLM call) is abstracted as a `tryModel`
oracle; the quota / non-quota distinction in the `except` block only
affects logging, not control flow, and is therefore not modelled. -/

/-- Outcome of `generate_spec_from_prompt`: either a spec value (abstracted
as the oracle result type `σ`) with the succeeding model id, or the
exhausted-chain `ValueError`. -/
inductive GenOutcome (σ : Type) where
  | ok (spec : σ) (model_used : String)
  | allModelsFailed (last_error : Option String)
deriving DecidableEq

/-- The `for current_model in chain` loop of `generate_spec_from_prompt`
(prompt_to_spec.py lines 236-263). -/
def walkChain {σ : Type} (tryModel : String → Except String σ) :
    List String → Option String → GenOutcome σ
  | [], lastError => .allModelsFailed lastError
  | m :: rest, _ =>
    match tryModel m with
    | .ok s => .ok s m
    | .error e =>
      -- every failure branch (quota or not) continues to the next model
      walkChain tryModel rest (some e)
  -- exiting with no success falls through to the final raise

/-- `generate_spec_from_prompt` (prompt_to_spec.py lines 207-263):
`start_model = model_id or DEFAULT_MODEL` (Python `or` also replaces the
empty string), then walk `get_fallback_chain(start_model)`. -/
def generate_spec_from_prompt {σ : Type} (tryModel : String → Except String σ)
    (model_id : Option String) : GenOutcome σ :=
  let start_model :=
    match model_id with
    | none => DEFAULT_MODEL
    | some m => if m = "" then DEFAULT_MODEL else m
  walkChain tryModel (get_fallback_chain start_model) none

/-! ### Reviewer score floor — `src/backend/app/agent/reviewer_agent.py`

The artifact record `ReviewReport` lives in `app/agent/artifacts.py`,
which is not among the sources; only the fields used by
`ReviewerAgent.run` are modelled. -/

/-- Modelled from the spec: the `ReviewReport` artifact
(`app/agent/artifacts.py` is absent from the sources); spec section 4.7
describes a trust score in [0, 10] that may be missing, matching the
`security_score or 0` guard and the `model_copy` update in
reviewer_agent.py.  Scores are embedded as `Option Int`. -/
structure ReviewReport where
  approved : Bool
  security_score : Option Int
deriving DecidableEq

/-- The score-floor step of `ReviewerAgent.run` (reviewer_agent.py lines
78-84): on a re-review, if `(review_report.security_score or 0) <
previous_score` the report is copied with `security_score :=
previous_score`.  Python `x or 0` yields `0` for both `None` and `0`,
i.e. `Option.getD 0`.  The LLM call producing the raw report is
abstracted: `raw` is its result. -/
def applyScoreFloor (previous_score : Option Int) (raw : ReviewReport) : ReviewReport :=
  match previous_score with
  | none => raw
  | some p =>
    if raw.security_score.getD 0 < p then
      { raw with security_score := some p }
    else raw

/-! ### Document processor — `src/backend/app/document_processor.py` -/

/-- Size ceiling (`MAX_FILE_SIZE`, document_processor.py line 19). -/
def MAX_FILE_SIZE : Nat := 5 * 1024 * 1024

/-- Supported extensions (`SUPPORTED_EXTENSIONS`, line 22). -/
def SUPPORTED_EXTENSIONS : List String := [".txt", ".md", ".json", ".csv", ".pdf"]

/-- Final path component (`pathlib.PurePath.name` for upload-style
filenames without trailing slashes): the characters after the last `/`. -/
def lastComponent (l : List Char) : List Char :=
  (l.reverse.takeWhile (fun c => ¬ c == '/')).reverse

/-- `pathlib.PurePath.suffix` of a name: with `i` the index of the last
dot, return `name[i:]` when `0 < i < len(name) - 1`, else the empty
suffix (so dotless names, leading-dot names and trailing-dot names have
no suffix). -/
def suffixOfName (name : List Char) : List Char :=
  if name.contains '.' then
    let afterDot := (name.reverse.takeWhile (fun c => ¬ c == '.')).reverse
    let i := name.length - afterDot.length - 1
    if 0 < i ∧ i < name.length - 1 then name.drop i else []
  else []

/-- `Path(filename).suffix.lower()` (document_processor.py line 53). -/
def extLower (filename : String) : String :=
  String.mk ((suffixOfName (lastComponent filename.toList)).map Char.toLower)

/-- Control-flow outcome of `extract_text` (document_processor.py lines
33-70): the two raised error kinds, or the extractor dispatched to.
The extractor bodies (decoding / pretty-printing) do not influence
which error kind is raised and are abstracted to their selection. -/
inductive ExtractOutcome where
  | fileTooLarge
  | unsupportedFile
  | plainText
  | jsonText
  | csvText
  | pdfText
deriving DecidableEq

/-- The guard-and-dispatch structure of `extract_text` (lines 48-70):
size ceiling first (`FileTooLargeError`), then extension check
(`UnsupportedFileError`), then dispatch on the lowered suffix.
`contentLen` is `len(content)` in bytes. -/
def extract_text (filename : String) (contentLen : Nat) : ExtractOutcome :=
  if contentLen > MAX_FILE_SIZE then .fileTooLarge
  else
    let ext := extLower filename
    if ¬ ext ∈ SUPPORTED_EXTENSIONS then .unsupportedFile
    else if ext = ".txt" ∨ ext = ".md" then .plainText
    else if ext = ".json" then .jsonText
    else if ext = ".csv" then .csvText
    else if ext = ".pdf" then .pdfText
    else .unsupportedFile

/-! ### RAG retrieval — `src/backend/app/rag.py` lines 231-295

The database session and the embedding provider are external: the
document count, the query embedding and the nearest-neighbour result
rows `(content, similarity)` are passed in explicitly.  The pgvector
similarity is a SQL float; it is embedded as a rational, preserving the
strict comparison against the literal threshold `0.3`. -/

/-- Similarity floor of `retrieve_context` (rag.py line 289). -/
def SIMILARITY_FLOOR : Rat := 3 / 10

/-- `retrieve_context` (rag.py lines 231-295): empty string when the
user has no documents, when the query embedding is empty, when the
nearest-neighbour query returns no rows, or when no row passes the
similarity floor; otherwise the passing contents joined by
`"\n---\n"`. -/
def retrieve_context (docCount : Nat) (queryEmbedding : List (List Rat))
    (rows : List (String × Rat)) : String :=
  if docCount = 0 then ""
  else if queryEmbedding = [] then ""
  else if rows = [] then ""
  else
    let context_parts := (rows.filter (fun r => SIMILARITY_FLOOR < r.snd)).map Prod.fst
    if context_parts = [] then ""
    else String.intercalate "\n---\n" context_parts

/-! ### Intent router — `src/backend/agents/intent_router.py`

The three compiled module-level regexes are pure pattern oracles on the
lowered prompt; they are passed in as `String → Bool` parameters and
the deterministic cascade of `classify_intent` (lines 59-101) is
embedded directly. -/

/-- Intent labels (intent_router.py lines 20-23). -/
inductive Intent where
  | retrieve
  | generate
  | refine
deriving DecidableEq

/-- A thread message, as consumed by `classify_intent`. -/
structure ThreadMessage where
  role : String
  content : String
deriving DecidableEq

/-- `bool(message_history and len(message_history) > 0)`
(intent_router.py line 85). -/
def hasHistory (message_history : Option (List ThreadMessage)) : Bool :=
  match message_history with
  | none => false
  | some l => decide (0 < l.length)

/-- `classify_intent` (intent_router.py lines 59-101). -/
def classify_intent (retrievePat refinePat generatePat : String → Bool)
    (prompt : String) (has_existing_project : Bool)
    (message_history : Option (List ThreadMessage)) : Intent :=
  let prompt_lower := prompt.trim.toLower
  if ¬ has_existing_project then .generate
  else if retrievePat prompt_lower then .retrieve
  else
    let has_history := hasHistory message_history
    if has_history && refinePat prompt_lower then .refine
    else if generatePat prompt_lower then .generate
    else if has_history then .refine
    else .generate

/-! ### RAG chunking — `src/backend/app/rag.py` lines 49-95

Text is embedded as `List Char` so that Python `len`, slicing and
`split("\n\n")` act on character positions. -/

/-- `text_content.split("\n\n")`: split at each non-overlapping
occurrence of two consecutive newlines, scanning left to right. -/
def splitParas : List Char → List (List Char)
  | [] => [[]]
  | '\n' :: '\n' :: rest => [] :: splitParas rest
  | c :: rest =>
    match splitParas rest with
    | [] => [[c]]
    | p :: ps => (c :: p) :: ps

/-- `f"{current}\n\n{para}" if current else para` (rag.py line 79). -/
def joinCurrent (current para : List Char) : List Char :=
  if current = [] then para else current ++ ['\n', '\n'] ++ para

/-- Start indices of `range(0, n, step)` for `step ≥ 1` (rag.py line 85):
`0, step, 2*step, ...` strictly below `n`. -/
def sliceStarts (n step : Nat) : List Nat :=
  List.range' 0 ((n + step - 1) / step) step

/-- Oversize-paragraph slicing (rag.py lines 84-86):
`para[i:i+chunk_size].strip()` for each start index. -/
def oversizeSlices (para : List Char) (chunk_size overlap : Nat) : List (List Char) :=
  (sliceStarts para.length (chunk_size - overlap)).map
    (fun i => stripChars ((para.drop i).take chunk_size))

/-- The paragraph loop of `chunk_text` (rag.py lines 73-93), processing
the remaining paragraphs with the accumulated `chunks` and the pending
`current` buffer; the base case is the final
`if current.strip(): chunks.append(current.strip())`. -/
def chunkLoop (chunk_size overlap : Nat) :
    List (List Char) → List (List Char) → List Char → List (List Char)
  | [], chunks, current =>
    chunks ++ (if ¬ stripChars current = [] then [stripChars current] else [])
  | para :: rest, chunks, current =>
    let p := stripChars para
    if p = [] then chunkLoop chunk_size overlap rest chunks current
    else if current.length + p.length + 2 ≤ chunk_size then
      chunkLoop chunk_size overlap rest chunks (joinCurrent current p)
    else
      let flushed := chunks ++ (if ¬ current = [] then [stripChars current] else [])
      if chunk_size < p.length then
        chunkLoop chunk_size overlap rest (flushed ++ oversizeSlices p chunk_size overlap) []
      else
        chunkLoop chunk_size overlap rest flushed p

/-- `chunk_text` (rag.py lines 49-95).  Defaults in the source:
`chunk_size = 500`, `overlap = 50`. -/
def chunk_text (text_content : List Char) (chunk_size overlap : Nat) : List (List Char) :=
  if stripChars text_content = [] then []
  else (chunkLoop chunk_size overlap (splitParas text_content) [] []).filter
    (fun c => ¬ c = [])

/-! ### Backend spec schema — `src/app/spec_schema.py`

The Pydantic validators are embedded as a decidable well-formedness
predicate `backendSpecValid`: a `BackendSpec` value satisfying it
corresponds exactly to a spec whose construction succeeded. -/

/-- `FieldType` (spec_schema.py lines 21-29). -/
inductive FieldType where
  | string
  | integer
  | float
  | boolean
  | datetime
  | uuid
  | text
deriving DecidableEq

/-- `FieldSpec` (spec_schema.py lines 44-60). -/
structure FieldSpec where
  name : String
  type : FieldType
  primary_key : Bool
  nullable : Bool
  unique : Bool
deriving DecidableEq

/-- `EntitySpec` (spec_schema.py lines 63-102). -/
structure EntitySpec where
  name : String
  table_name : String
  fields : List FieldSpec
  crud : Bool
deriving DecidableEq

/-- `AuthConfig` (spec_schema.py lines 111-115); the `type` variant has a
single constructor (`jwt`) and is dropped. -/
structure AuthConfig where
  enabled : Bool
  access_token_expiry_minutes : Nat
deriving DecidableEq

/-- `BackendSpec` (spec_schema.py lines 122-170); the `database` record
is a single-variant config and is dropped. -/
structure BackendSpec where
  project_name : String
  description : String
  spec_version : String
  auth : AuthConfig
  entities : List EntitySpec
deriving DecidableEq

/-- Regex `^[a-z][a-z0-9_]*$` (field and table names, spec_schema.py
lines 55, 83). -/
def isSnakeCaseName (s : String) : Bool :=
  match s.toList with
  | [] => false
  | c :: cs => c.isLower && cs.all (fun d => d.isLower || d.isDigit || d == '_')

/-- Regex `^[A-Z][a-zA-Z0-9]*$` (entity names, spec_schema.py line 73). -/
def isPascalCaseName (s : String) : Bool :=
  match s.toList with
  | [] => false
  | c :: cs => c.isUpper && cs.all (fun d => d.isAlpha || d.isDigit)

/-- Regex `^[a-z][a-z0-9\-]*$` (project names, spec_schema.py line 143). -/
def isProjectSlug (s : String) : Bool :=
  match s.toList with
  | [] => false
  | c :: cs => c.isLower && cs.all (fun d => d.isLower || d.isDigit || d == '-')

/-- Pydantic validation of one `FieldSpec`. -/
def fieldSpecValid (f : FieldSpec) : Bool :=
  isSnakeCaseName f.name

/-- Pydantic validation of one `EntitySpec`, including
`validate_has_primary_key` (spec_schema.py lines 89-102): exactly one
primary-key field. -/
def entitySpecValid (e : EntitySpec) : Bool :=
  isPascalCaseName e.name && isSnakeCaseName e.table_name &&
  decide (0 < e.fields.length) && e.fields.all fieldSpecValid &&
  decide ((e.fields.filter (fun f => f.primary_key)).length = 1)

/-- Pydantic validation of a whole `BackendSpec` (spec_schema.py lines
122-170): project-name slug of at most 64 characters, a non-empty
entity list of individually valid entities, case-insensitively unique
entity names and unique table names. -/
def backendSpecValid (s : BackendSpec) : Bool :=
  isProjectSlug s.project_name && decide (s.project_name.length ≤ 64) &&
  decide (0 < s.entities.length) && s.entities.all entitySpecValid &&
  decide ((s.entities.map (fun e => e.name.toLower)).Nodup) &&
  decide ((s.entities.map (fun e => e.table_name)).Nodup)

/-! ### Spec review — `src/agents/spec_review.py` -/

/-- `ValidationResult` (spec_review.py lines 17-23). -/
structure ValidationResult where
  valid : Bool
  spec : Option BackendSpec
  errors : List String
  warnings : List String
deriving DecidableEq

/-- Reserved names (spec_review.py line 52). -/
def reservedNames : List String :=
  ["id", "type", "class", "import", "from", "return", "pass"]

/-- Duplicate-field error message (spec_review.py lines 61-63). -/
def dupFieldMsg (ename fname : String) : String :=
  "Entity \u0027" ++ ename ++ "\u0027 has duplicate field name: \u0027" ++ fname ++ "\u0027"

/-- Reserved-word warning message (spec_review.py lines 69-72). -/
def reservedWarnMsg (ename fname : String) : String :=
  "Entity \u0027" ++ ename ++ "\u0027, field \u0027" ++ fname ++
  "\u0027 uses a Python reserved word. This may cause issues in generated code."

/-- Nullable-primary-key error message (spec_review.py lines 77-80). -/
def nullablePkMsg (ename fname : String) : String :=
  "Entity \u0027" ++ ename ++ "\u0027: primary key field \u0027" ++ fname ++
  "\u0027 must not be nullable"

/-- Auth table conflict error message (spec_review.py lines 86-89). -/
def authConflictMsg (ename : String) : String :=
  "Entity \u0027" ++ ename ++ "\u0027 uses table name \u0027user_accounts\u0027 " ++
  "which is reserved for the built-in auth user model"

/-- Generic-project-name warning message (spec_review.py lines 93-96). -/
def genericNameMsg (pname : String) : String :=
  "Project name \u0027" ++ pname ++ "\u0027 is generic and may conflict " ++
  "with common directory names"

/-- The duplicate-field-name loop of `review_spec` (spec_review.py lines
58-64): walk the fields, emitting an error whenever a name was already
seen, and record every name. -/
def dupFieldErrors (ename : String) : List FieldSpec → List String → List String
  | [], _ => []
  | f :: fs, seen =>
    (if f.name ∈ seen then [dupFieldMsg ename f.name] else []) ++
    dupFieldErrors ename fs (f.name :: seen)

/-- The reserved-word warning loop (spec_review.py lines 67-72). -/
def reservedWarnings (e : EntitySpec) : List String :=
  (e.fields.filter (fun f => decide (f.name ∈ reservedNames) && ¬ f.name == "id")).map
    (fun f => reservedWarnMsg e.name f.name)

/-- The nullable-primary-key error loop (spec_review.py lines 74-80):
`pk_fields` filtered to the nullable ones. -/
def nullablePkErrors (e : EntitySpec) : List String :=
  (((e.fields.filter (fun f => f.primary_key)).filter (fun f => f.nullable))).map
    (fun f => nullablePkMsg e.name f.name)

/-- Errors contributed by one entity, in source emission order. -/
def entityErrors (e : EntitySpec) : List String :=
  dupFieldErrors e.name e.fields [] ++ nullablePkErrors e

/-- Auth-consistency errors (spec_review.py lines 82-89). -/
def authErrors (s : BackendSpec) : List String :=
  if s.auth.enabled then
    (s.entities.filter (fun e => e.table_name == "user_accounts")).map
      (fun e => authConflictMsg e.name)
  else []

/-- Generic-project-name warnings (spec_review.py lines 91-96). -/
def genericNameWarnings (s : BackendSpec) : List String :=
  if s.project_name ∈ ["app", "test", "tests", "src", "lib"] then
    [genericNameMsg s.project_name]
  else []

/-- All errors accumulated by `review_spec`, in source order: per-entity
duplicate-field and nullable-primary-key errors, then auth conflicts. -/
def reviewErrors (s : BackendSpec) : List String :=
  (s.entities.map entityErrors).flatten ++ authErrors s

/-- All warnings accumulated by `review_spec`, in source order. -/
def reviewWarnings (s : BackendSpec) : List String :=
  (s.entities.map reservedWarnings).flatten ++ genericNameWarnings s

/-- `review_spec` (spec_review.py lines 26-102). -/
def review_spec (s : BackendSpec) : ValidationResult :=
  let errors := reviewErrors s
  let warnings := reviewWarnings s
  if errors = [] then
    { valid := true, spec := some s, errors := [], warnings := warnings }
  else
    { valid := false, spec := none, errors := errors, warnings := warnings }

/-! ### Sandbox failure extraction — `src/backend/app/agent/sandbox_executor.py`

`deploy_and_test` (lines 224-309) mixes container I/O with a pure
failure-extraction block (lines 258-288) that runs when the health
check fails: the uvicorn log tail is parsed with
`re.finditer` of `File "[^"]*/(app/\S+\.py)", line (\d+)` (last
match wins) and
`re.search` of `(NameError|ImportError|...|RuntimeError): (.+)`
(first match wins).  The two regexes are implemented below as total
scanners over `List Char`, for log tails in standard Python traceback
shape: the quoted path after `File "` contains no further quote and is
followed directly by `", line <digits>`. -/

/-- Digit run: the match of `\d+` at the head of the list. -/
def digitsTake (l : List Char) : List Char := l.takeWhile Char.isDigit

/-- Numeric value of a digit run, as `int(...)` of the captured group. -/
def digitsToNat (l : List Char) : Nat :=
  l.foldl (fun acc c => acc * 10 + (c.toNat - 48)) 0

/-- Is `i` a valid split point of `path` into `[^"]*` `/` `(app/\S+\.py)`?
It must be preceded by `/`, and the suffix from `i` must be
`app/` ++ middle ++ `.py` with a non-empty whitespace-free middle,
extending to the end of the path (the closing quote follows). -/
def appGroupOk (path : List Char) (i : Nat) : Bool :=
  let s := path.drop i
  decide (1 ≤ i) && ((path.drop (i - 1)).take 1 == ['/']) &&
  startsWithChars "app/".toList s && decide (8 ≤ s.length) &&
  (s.drop (s.length - 3) == ".py".toList) &&
  ((s.drop 4).take (s.length - 7)).all (fun c => ¬ isSpaceChar c)

/-- The greedy `[^"]*` prefers the rightmost valid split point; the
captured group is the path suffix from there. -/
def lastAppGroup (path : List Char) : Option (List Char) :=
  match (List.range (path.length + 1)).reverse.find? (appGroupOk path) with
  | some i => some (path.drop i)
  | none => none

/-- Attempt to match `File "[^"]*/(app/\S+\.py)", line (\d+)` at the head
of the text; on success return the captured file path, the line number
and the number of characters the whole match consumed. -/
def frameMatchAt (cs : List Char) : Option (List Char × Nat × Nat) :=
  if startsWithChars "File \"".toList cs then
    let t := cs.drop 6
    let path := t.takeWhile (fun c => ¬ c == '"')
    if t.length ≤ path.length then none
    else
      let afterQuote := t.drop (path.length + 1)
      if startsWithChars ", line ".toList afterQuote then
        let ds := digitsTake (afterQuote.drop 7)
        if ds = [] then none
        else
          match lastAppGroup path with
          | none => none
          | some g => some (g, digitsToNat ds, 6 + path.length + 1 + 7 + ds.length)
      else none
  else none

/-- `re.finditer` over the frame pattern: leftmost matches, scanning
resumes after each match end.  Structured as fuel recursion on the text
length (each step consumes at least one character). -/
def frameScanAux : Nat → List Char → List (List Char × Nat)
  | 0, _ => []
  | _ + 1, [] => []
  | fuel + 1, c :: cs =>
    match frameMatchAt (c :: cs) with
    | some (g, n, k) => (g, n) :: frameScanAux fuel ((c :: cs).drop (max k 1))
    | none => frameScanAux fuel cs

/-- All matches of the traceback-frame pattern, in order. -/
def frameScan (l : List Char) : List (List Char × Nat) :=
  frameScanAux l.length l

/-- Error-kind alternatives of the sandbox executor regex
(sandbox_executor.py lines 274-277), in alternation order. -/
def errorKindsFull : List (List Char) :=
  ["NameError".toList, "ImportError".toList, "ModuleNotFoundError".toList,
   "AttributeError".toList, "TypeError".toList, "ValueError".toList,
   "SyntaxError".toList, "IndentationError".toList, "KeyError".toList,
   "RuntimeError".toList]

/-- Error-kind alternatives of the orchestrator regex
(orchestrator.py lines 531-534), in alternation order. -/
def errorKindsLite : List (List Char) :=
  ["NameError".toList, "ImportError".toList, "ModuleNotFoundError".toList,
   "AttributeError".toList, "TypeError".toList, "ValueError".toList,
   "SyntaxError".toList]

/-- Attempt to match `(Kind1|Kind2|...): (.+)` at the head of the text
(no two kind names are prefixes of one another, so `find?` over the
alternation order is the regex alternation).  `.` excludes newlines. -/
def errorMatchAt (kinds : List (List Char)) (cs : List Char) :
    Option (List Char × List Char) :=
  match kinds.find? (fun k => startsWithChars k cs) with
  | none => none
  | some k =>
    let rest := cs.drop k.length
    if startsWithChars ": ".toList rest then
      let msg := (rest.drop 2).takeWhile (fun c => ¬ c == '\n')
      if msg = [] then none else some (k, msg)
    else none

/-- `re.search` over the error pattern: first position with a match. -/
def errorScan (kinds : List (List Char)) : List Char → Option (List Char × List Char)
  | [] => none
  | c :: cs =>
    match errorMatchAt kinds (c :: cs) with
    | some r => some r
    | none => errorScan kinds cs

/-- Modelled from the spec: the `SandboxTestReport` artifact
(`app/agent/artifacts.py` is absent from the sources); spec section 3
gives it as `(deployed, health_check_ok, tests_passed, tests_failed,
tests_total, test_output, failures[], error_file_path?, error_line?,
traceback_summary?)`, matching the constructor calls in
sandbox_executor.py. -/
structure SandboxTestReport where
  deployed : Bool
  health_check_ok : Bool
  tests_passed : Nat := 0
  tests_failed : Nat := 0
  tests_total : Nat := 0
  test_output : List Char := []
  failures : List (List Char) := []
  error_file_path : Option (List Char) := none
  error_line : Option Nat := none
  traceback_summary : List Char := []
deriving DecidableEq

/-- Literal prefix of the failed-health-check `test_output`
(sandbox_executor.py line 284). -/
def healthFailPrefixChars : List Char :=
  "Health check failed. Uvicorn log:\n".toList

/-- The unhealthy branch of `deploy_and_test` (sandbox_executor.py lines
248-288) as a function of the captured log tail: structured error info
is parsed only when the log is non-empty; `error_file_path` /
`error_line` come from the last frame match, `traceback_summary` from
the first error-kind match as `"Kind: stripped-message"`. -/
def unhealthyReport (log_content : List Char) : SandboxTestReport :=
  let frames := if ¬ log_content = [] then frameScan log_content else []
  let err := if ¬ log_content = [] then errorScan errorKindsFull log_content else none
  { deployed := true
    health_check_ok := false
    test_output := healthFailPrefixChars ++ log_content
    error_file_path := frames.getLast?.map Prod.fst
    error_line := frames.getLast?.map (fun p => p.snd)
    traceback_summary :=
      match err with
      | none => []
      | some (k, m) => k ++ ": ".toList ++ stripChars m }

/-! ### Sandbox patch-request construction —
`src/backend/app/agent/orchestrator.py` lines 480-596 -/

/-- Modelled from the spec: the `FilePatchRequest` artifact
(`app/agent/artifacts.py` is absent from the sources); spec section 3
gives the Patch Request as `(file_path, reason, instructions[])`,
matching the keyword arguments in orchestrator.py. -/
structure FilePatchRequest where
  path : List Char
  reason : List Char
  instructions : List (List Char)
deriving DecidableEq

/-- `sandbox_error_summary` (orchestrator.py lines 480-488). -/
def sandboxErrorSummary (r : SandboxTestReport) : List (List Char) :=
  (if ¬ r.deployed then ["Sandbox container failed to start".toList] else []) ++
  (if ¬ r.health_check_ok then
    ["Health check failed (API did not respond on /docs)".toList] else []) ++
  r.failures.take 5 ++
  (if ¬ r.test_output = [] && ¬ r.health_check_ok then
    ["Logs: ".toList ++ r.test_output.take 500] else [])

/-- Python join of the parts with the separator `; `. -/
def joinSemicolon (parts : List (List Char)) : List Char :=
  match parts with
  | [] => []
  | p :: ps => p ++ (ps.map (fun q => "; ".toList ++ q)).flatten

/-- Python join of the parts with the separator `, `. -/
def joinComma (parts : List (List Char)) : List Char :=
  match parts with
  | [] => []
  | p :: ps => p ++ (ps.map (fun q => ", ".toList ++ q)).flatten

/-- Decimal rendering of a natural number, as Python `str(n)`. -/
def natToChars (n : Nat) : List Char := (Nat.repr n).toList

/-- Attempt to match `(app/\S+\.py)` at the head of the text: after the
literal `app/`, the greedy `\S+\.py` captures up to the last `.py`
inside the following whitespace-free run. -/
def appFileMatchAt (cs : List Char) : Option (List Char) :=
  if startsWithChars "app/".toList cs then
    let run := (cs.drop 4).takeWhile (fun c => ¬ isSpaceChar c)
    match (List.range (run.length + 1)).reverse.find?
        (fun t => decide (4 ≤ t) && ((run.take t).drop (t - 3) == ".py".toList)) with
    | some t => some ("app/".toList ++ run.take t)
    | none => none
  else none

/-- `re.search` of `(app/\S+\.py)` over the message (orchestrator.py line 571). -/
def appFileScan : List Char → Option (List Char)
  | [] => none
  | c :: cs =>
    match appFileMatchAt (c :: cs) with
    | some g => some g
    | none => appFileScan cs

/-- The `failing_files` accumulation (orchestrator.py lines 565-573).
The source collects into a Python `set` and then iterates it; the set
is modelled as a list deduplicated in first-insertion order (for the
claims below the set is empty or a singleton, where the orders agree). -/
def failingFiles (failures : List (List Char)) : List (List Char) :=
  failures.foldl
    (fun acc msg =>
      if containsSub "test_".toList msg && containsSub "::".toList msg then acc
      else if containsSub "app/".toList msg then
        match appFileScan msg with
        | some g => if g ∈ acc then acc else acc ++ [g]
        | none => acc
      else acc)
    []

/-- Patch-request construction from a failed sandbox report
(orchestrator.py lines 514-596): a targeted request when the traceback
names a file, an entry-point request when the health check failed and
the traceback file is not `app/main.py`, per-file requests for failing
tests, and a catch-all when nothing was produced. -/
def sandboxPatchRequests (report : SandboxTestReport) : List FilePatchRequest :=
  let tb_file :=
    if ¬ report.test_output = [] then
      (frameScan report.test_output).head?.map Prod.fst
    else none
  let tb_err :=
    if ¬ report.test_output = [] then
      match errorScan errorKindsLite report.test_output with
      | some (k, m) => some (k ++ ": ".toList ++ stripChars m)
      | none => none
    else none
  let reqs1 : List FilePatchRequest :=
    match tb_file with
    | some p =>
      [{ path := p
         reason := "Sandbox runtime error: ".toList ++ tb_err.getD "unknown error".toList
         instructions :=
           ["Fix the runtime error in this file that prevents the API from starting.".toList,
            "Error: ".toList ++ tb_err.getD "See full output below".toList,
            "Make sure all imports are correct — if you use Field, SQLModel, etc., import them explicitly.".toList,
            "Sandbox output: ".toList ++ report.test_output.take 500] }]
    | none => []
  let reqs2 := reqs1 ++
    (if ¬ report.health_check_ok && ¬ tb_file == some "app/main.py".toList then
      [{ path := "app/main.py".toList
         reason := "Sandbox health check failed — API did not start".toList
         instructions :=
           ["Fix any import errors, syntax errors, or configuration issues that prevent uvicorn from starting.".toList,
            "Sandbox error output: ".toList ++ report.test_output.take 300] }]
    else [])
  let reqs3 := reqs2 ++
    ((failingFiles report.failures).filter (fun f => ¬ tb_file == some f)).map
      (fun f =>
        { path := f
          reason := "Sandbox tests failed — ".toList ++ natToChars report.tests_failed ++
            " test(s) failing".toList
          instructions :=
            ["Fix issues causing sandbox test failures.".toList,
             "Failing tests: ".toList ++ joinComma (report.failures.take 3),
             "Test output snippet: ".toList ++ report.test_output.take 200] })
  if reqs3 = [] then
    [{ path := "app/main.py".toList
       reason := "Sandbox deployment failed".toList
       instructions :=
         ["Review and fix the main application entry point.".toList,
          "Error: ".toList ++
            joinSemicolon ((sandboxErrorSummary report).take 3)] }]
  else reqs3

/-! ### Concrete witness inputs -/

/-- A compact entity with one non-nullable uuid primary key. -/
def sampleEntity : EntitySpec :=
  { name := "Task"
    table_name := "tasks"
    fields :=
      [ { name := "id", type := FieldType.uuid, primary_key := true,
          nullable := false, unique := true },
        { name := "title", type := FieldType.string, primary_key := false,
          nullable := false, unique := false },
        { name := "done", type := FieldType.boolean, primary_key := false,
          nullable := true, unique := false } ]
    crud := true }

/-- A small structurally valid spec built on `sampleEntity`. -/
def sampleSpec : BackendSpec :=
  { project_name := "todo-api"
    description := "A todo API"
    spec_version := "1.0"
    auth := { enabled := true, access_token_expiry_minutes := 30 }
    entities := [sampleEntity] }

/-- A concrete uvicorn log tail for a startup `NameError` raised in
`app/models.py` at line 4 — the scenario of spec section 8,
end-to-end scenario 5. -/
def exampleSandboxLog : List Char :=
  ("Traceback (most recent call last):\n  File \"/sandbox/proj/app/models.py\", line 4, in <module>\nNameError: name \u0027Field\u0027 is not defined\n").toList

/-! ## Theorems -/

/-! ### Supporting lemmas -/

theorem stripChars_length_le (l : List Char) : (stripChars l).length ≤ l.length := by
  unfold stripChars
  calc ((l.dropWhile isSpaceChar).reverse.dropWhile isSpaceChar).reverse.length
      = ((l.dropWhile isSpaceChar).reverse.dropWhile isSpaceChar).length := by
        rw [List.length_reverse]
    _ ≤ (l.dropWhile isSpaceChar).reverse.length :=
        (List.dropWhile_sublist isSpaceChar).length_le
    _ = (l.dropWhile isSpaceChar).length := by rw [List.length_reverse]
    _ ≤ l.length := (List.dropWhile_sublist isSpaceChar).length_le

theorem stripChars_nil : stripChars [] = [] := rfl

theorem chainLoop_succ (fuel : Nat) (c : String) (visited chain : List String) :
    chainLoop (fuel + 1) (some c) visited chain =
      (if c = "" then chain
       else if c ∈ visited then chain
       else
         match getModel c with
         | none => chain
         | some m => chainLoop fuel m.fallback (c :: visited) (chain ++ [c])) := rfl

theorem mem_modelKeys_of_getModel {c : String} {m : ModelInfo}
    (h : getModel c = some m) : c ∈ modelKeys := by
  unfold getModel at h
  cases hf : MODELS.find? (fun p => p.fst == c) with
  | none => rw [hf] at h; simp at h
  | some pr =>
    have hmem := List.mem_of_find?_eq_some hf
    have hp := List.find?_some hf
    have hpc : pr.fst = c := by simpa using hp
    unfold modelKeys
    exact hpc ▸ List.mem_map_of_mem Prod.fst hmem

theorem freeKeys_cons_lt {c : String} {v : List String} {l : List String}
    (hc : c ∈ l) (hv : c ∉ v) :
    (l.filter (fun k => decide (¬ k ∈ c :: v))).length <
      (l.filter (fun k => decide (¬ k ∈ v))).length := by
  induction l with
  | nil => cases hc
  | cons a t ih =>
    by_cases hac : a = c
    · subst hac
      have h1 : (decide (¬ a ∈ a :: v)) = false := by simp
      have h2 : (decide (¬ a ∈ v)) = true := by simpa using hv
      have e1 : (a :: t).filter (fun k => decide (¬ k ∈ a :: v)) =
          t.filter (fun k => decide (¬ k ∈ a :: v)) := by
        rw [List.filter_cons, h1]; simp
      have e2 : (a :: t).filter (fun k => decide (¬ k ∈ v)) =
          a :: t.filter (fun k => decide (¬ k ∈ v)) := by
        rw [List.filter_cons, h2]; simp
      have hmono : List.Sublist (t.filter (fun k => decide (¬ k ∈ a :: v)))
          (t.filter (fun k => decide (¬ k ∈ v))) := by
        apply List.monotone_filter_right
        intro x hx
        simp only [decide_eq_true_eq] at hx ⊢
        intro hxv
        exact hx (List.mem_cons_of_mem a hxv)
      have hlen := hmono.length_le
      rw [e1, e2]
      simp only [List.length_cons]
      omega
    · have hct : c ∈ t := by
        rcases List.mem_cons.mp hc with h | h
        · exact absurd h.symm hac
        · exact h
      have heq : (decide (¬ a ∈ c :: v)) = (decide (¬ a ∈ v)) := by
        by_cases hav : a ∈ v
        · simp [hav]
        · simp [hav, List.mem_cons, hac]
      rw [List.filter_cons, List.filter_cons, heq]
      cases hd : (decide (¬ a ∈ v)) with
      | false =>
        simp only [Bool.false_eq_true, if_false]
        exact ih hct
      | true =>
        simp only [if_true]
        simp only [List.length_cons]
        exact Nat.succ_lt_succ (ih hct)

theorem chainLoop_fuel_congr :
    ∀ (fuel₁ fuel₂ : Nat) (current : Option String) (visited chain : List String),
      (freeKeys visited).length < fuel₁ → (freeKeys visited).length < fuel₂ →
      chainLoop fuel₁ current visited chain = chainLoop fuel₂ current visited chain := by
  intro fuel₁
  induction fuel₁ with
  | zero => intro fuel₂ current visited chain h1; omega
  | succ n ih =>
    intro fuel₂ current visited chain h1 h2
    cases fuel₂ with
    | zero => omega
    | succ m =>
      cases current with
      | none => rfl
      | some c =>
        rw [chainLoop_succ, chainLoop_succ]
        by_cases hce : c = ""
        · rw [if_pos hce, if_pos hce]
        · rw [if_neg hce, if_neg hce]
          by_cases hcv : c ∈ visited
          · rw [if_pos hcv, if_pos hcv]
          · rw [if_neg hcv, if_neg hcv]
            cases hg : getModel c with
            | none => rfl
            | some mi =>
              show chainLoop n mi.fallback (c :: visited) (chain ++ [c]) =
                chainLoop m mi.fallback (c :: visited) (chain ++ [c])
              have hck : c ∈ modelKeys := mem_modelKeys_of_getModel hg
              have hlt : (freeKeys (c :: visited)).length < (freeKeys visited).length :=
                freeKeys_cons_lt hck hcv
              exact ih m mi.fallback (c :: visited) (chain ++ [c])
                (by unfold freeKeys at hlt h1 ⊢; omega)
                (by unfold freeKeys at hlt h2 ⊢; omega)

theorem chainLoop_nodup :
    ∀ (fuel : Nat) (current : Option String) (visited chain : List String),
      chain.Nodup → (∀ x ∈ chain, x ∈ visited) → (chainLoop fuel current visited chain).Nodup := by
  intro fuel
  induction fuel with
  | zero => intro current visited chain hn _; exact hn
  | succ n ih =>
    intro current visited chain hn hsub
    cases current with
    | none => exact hn
    | some c =>
      rw [chainLoop_succ]
      by_cases hce : c = ""
      · rw [if_pos hce]; exact hn
      · rw [if_neg hce]
        by_cases hcv : c ∈ visited
        · rw [if_pos hcv]; exact hn
        · rw [if_neg hcv]
          cases hg : getModel c with
          | none => exact hn
          | some mi =>
            apply ih
            · have hcc : c ∉ chain := fun hc => hcv (hsub c hc)
              rw [List.nodup_append]
              exact ⟨hn, List.nodup_singleton c, by simpa [List.disjoint_singleton] using hcc⟩
            · intro x hx
              rcases List.mem_append.mp hx with h | h
              · exact List.mem_cons_of_mem c (hsub x h)
              · simp only [List.mem_singleton] at h
                subst h
                exact List.mem_cons_self x visited

/-! ### Claim C4 -/

/-- C4: for every starting model id, the fallback chain derived by
following `fallback` links (stopping on a null link, a cycle via the
visited set, or an unregistered id) is a finite list without repeated
model ids, and the bounded loop has genuinely terminated: giving the
`while` loop any additional fuel does not change its result. -/
theorem c4_fallback_chain_terminates_nodup (model_id : String) :
    (get_fallback_chain model_id).Nodup ∧
    ∀ extra : Nat,
      chainLoop (MODELS.length + 1 + extra) (some model_id) [] [] =
        get_fallback_chain model_id := by
  constructor
  · exact chainLoop_nodup _ _ _ _ List.nodup_nil (by simp)
  · intro extra
    have h0 : (freeKeys []).length < MODELS.length + 1 := by
      have h1 := List.length_filter_le (fun k => decide (¬ k ∈ ([] : List String))) modelKeys
      have h2 : modelKeys.length = MODELS.length := List.length_map _ _
      unfold freeKeys
      omega
    exact chainLoop_fuel_congr _ _ _ _ _ (by omega) h0

/-- Witness for C4 at the default model: its chain has no duplicates and
is stable under extra fuel. -/
theorem c4_fallback_chain_terminates_nodup_witness :
    (get_fallback_chain "gemini-2.0-flash").Nodup ∧
    chainLoop (MODELS.length + 1 + 7) (some "gemini-2.0-flash") [] [] =
      get_fallback_chain "gemini-2.0-flash" :=
  ⟨(c4_fallback_chain_terminates_nodup "gemini-2.0-flash").1,
   (c4_fallback_chain_terminates_nodup "gemini-2.0-flash").2 7⟩

/-! ### Claim C2 -/

/-- C2: on every re-review with a previous score `p`, whatever raw score
the LLM returns (any integer or a missing value), the returned report
never scores below `p`: read through the missing-as-zero convention of the code
convention the score is at least `p`, and whenever a numeric score is
present it is at least `p`. -/
theorem c2_reviewer_score_floor (p : Int) (raw : ReviewReport) :
    p ≤ (applyScoreFloor (some p) raw).security_score.getD 0 ∧
    ∀ v : Int, (applyScoreFloor (some p) raw).security_score = some v → p ≤ v := by
  by_cases h : raw.security_score.getD 0 < p
  · refine ⟨?_, ?_⟩
    · simp [applyScoreFloor, h]
    · intro v hv
      simp [applyScoreFloor, h] at hv
      omega
  · refine ⟨?_, ?_⟩
    · simpa [applyScoreFloor, h] using not_lt.mp h
    · intro v hv
      simp [applyScoreFloor, h] at hv
      rw [hv] at h
      simpa using not_lt.mp h

/-- Witness for C2: a previous score of 5 and a raw score of 4 yield an
observed score of at least 5. -/
theorem c2_reviewer_score_floor_witness :
    (5 : Int) ≤ (applyScoreFloor (some 5)
      { approved := false, security_score := some 4 }).security_score.getD 0 :=
  (c2_reviewer_score_floor 5 { approved := false, security_score := some 4 }).1

/-! ### Claim C7 -/

/-- C7: `extract_text` raises the file-too-large kind exactly when the
content exceeds 5 * 1024 * 1024 bytes (an exactly-5-MiB file is never
rejected for size), and raises the unsupported-file kind whenever the
size is within the ceiling but the lowered filename suffix is outside
the supported set. -/
theorem c7_extract_text_size_and_extension (filename : String) (contentLen : Nat) :
    (extract_text filename contentLen = ExtractOutcome.fileTooLarge ↔
      MAX_FILE_SIZE < contentLen) ∧
    (contentLen ≤ MAX_FILE_SIZE → ¬ extLower filename ∈ SUPPORTED_EXTENSIONS →
      extract_text filename contentLen = ExtractOutcome.unsupportedFile) ∧
    ¬ extract_text filename (5 * 1024 * 1024) = ExtractOutcome.fileTooLarge := by
  have hmax : MAX_FILE_SIZE = 5 * 1024 * 1024 := rfl
  have key : ∀ n, ¬ MAX_FILE_SIZE < n →
      ¬ extract_text filename n = ExtractOutcome.fileTooLarge := by
    intro n hn
    unfold extract_text
    rw [if_neg hn]
    dsimp only
    split_ifs <;> simp
  refine ⟨⟨?_, ?_⟩, ?_, ?_⟩
  · intro h
    by_contra hlt
    exact key contentLen hlt h
  · intro h
    unfold extract_text
    rw [if_pos h]
  · intro hle hext
    unfold extract_text
    rw [if_neg (by omega : ¬ contentLen > MAX_FILE_SIZE)]
    dsimp only
    rw [if_pos hext]
  · exact key _ (by omega)

/-- Witness for C7: an exactly-5-MiB text file is extracted as plain
text, and a small `.doc` upload is rejected as unsupported. -/
theorem c7_extract_text_size_and_extension_witness :
    ¬ extract_text "notes.txt" (5 * 1024 * 1024) = ExtractOutcome.fileTooLarge ∧
    extract_text "report.doc" 10 = ExtractOutcome.unsupportedFile :=
  ⟨(c7_extract_text_size_and_extension "notes.txt" (5 * 1024 * 1024)).2.2,
   (c7_extract_text_size_and_extension "report.doc" 10).2.1 (by decide) (by decide)⟩

/-! ### Claim C8 -/

/-- C8: `retrieve_context` includes a returned row in the context string
only if its similarity is strictly above the 0.3 floor (the surviving
contents, joined with the separator, are exactly the filtered ones),
and returns the empty string — not an error — when the user has no
documents, the nearest-neighbour query returns no rows, or no row
passes the floor. -/
theorem c8_retrieve_context_floor (docCount : Nat) (qe : List (List Rat))
    (rows : List (String × Rat)) :
    (docCount = 0 → retrieve_context docCount qe rows = "") ∧
    (qe = [] → retrieve_context docCount qe rows = "") ∧
    (rows = [] → retrieve_context docCount qe rows = "") ∧
    ((∀ r ∈ rows, r.snd ≤ SIMILARITY_FLOOR) → retrieve_context docCount qe rows = "") ∧
    (¬ docCount = 0 → ¬ qe = [] →
      ¬ (rows.filter (fun r => SIMILARITY_FLOOR < r.snd)) = [] →
      retrieve_context docCount qe rows =
        String.intercalate "\n---\n"
          ((rows.filter (fun r => SIMILARITY_FLOOR < r.snd)).map Prod.fst)) := by
  refine ⟨?_, ?_, ?_, ?_, ?_⟩
  · intro h; simp [retrieve_context, h]
  · intro h
    by_cases hd : docCount = 0
    · simp [retrieve_context, hd]
    · simp [retrieve_context, hd, h]
  · intro h
    by_cases hd : docCount = 0
    · simp [retrieve_context, hd]
    · by_cases hq : qe = []
      · simp [retrieve_context, hd, hq]
      · simp [retrieve_context, hd, hq, h]
  · intro h
    have hf : rows.filter (fun r => SIMILARITY_FLOOR < r.snd) = [] := by
      rw [List.filter_eq_nil_iff]
      intro a ha
      simpa using not_lt.mpr (h a ha)
    by_cases hd : docCount = 0
    · simp [retrieve_context, hd]
    · by_cases hq : qe = []
      · simp [retrieve_context, hd, hq]
      · by_cases hr : rows = []
        · simp [retrieve_context, hd, hq, hr]
        · simp [retrieve_context, hd, hq, hr, hf]
  · intro hd hq hf
    have hr : ¬ rows = [] := by
      intro h; rw [h] at hf; simp at hf
    have hparts : ¬ ((rows.filter (fun r => SIMILARITY_FLOOR < r.snd)).map Prod.fst) = [] := by
      simpa [List.map_eq_nil_iff] using hf
    simp [retrieve_context, hd, hq, hr, hparts]

/-- Witness for C8: one passing and one failing row produce the passing
content alone. -/
theorem c8_retrieve_context_floor_witness :
    retrieve_context 1 [[(1 : Rat)]] [("good", 1), ("bad", 0)] =
      String.intercalate "\n---\n"
        (((([("good", (1 : Rat)), ("bad", 0)]).filter
          (fun r => SIMILARITY_FLOOR < r.snd))).map Prod.fst) :=
  (c8_retrieve_context_floor 1 [[(1 : Rat)]] [("good", 1), ("bad", 0)]).2.2.2.2
    (by decide) (by decide)
    (by
      have h1 : SIMILARITY_FLOOR < (1 : Rat) := by norm_num [SIMILARITY_FLOOR]
      simp [List.filter_cons, h1])

/-! ### Claim C9 -/

/-- C9: `classify_intent` follows the deterministic cascade: with no
existing artifact it always returns GENERATE; otherwise a
RETRIEVE-pattern match returns RETRIEVE; otherwise a REFINE-pattern
match with non-empty history returns REFINE; otherwise a
GENERATE-pattern match returns GENERATE; otherwise the default is
REFINE with non-empty history and GENERATE without. -/
theorem c9_classify_intent_cascade (rPat fPat gPat : String → Bool)
    (prompt : String) (art : Bool) (hist : Option (List ThreadMessage)) :
    (art = false →
      classify_intent rPat fPat gPat prompt art hist = Intent.generate) ∧
    (art = true → rPat (prompt.trim.toLower) = true →
      classify_intent rPat fPat gPat prompt art hist = Intent.retrieve) ∧
    (art = true → rPat (prompt.trim.toLower) = false → hasHistory hist = true →
      fPat (prompt.trim.toLower) = true →
      classify_intent rPat fPat gPat prompt art hist = Intent.refine) ∧
    (art = true → rPat (prompt.trim.toLower) = false →
      (hasHistory hist && fPat (prompt.trim.toLower)) = false →
      gPat (prompt.trim.toLower) = true →
      classify_intent rPat fPat gPat prompt art hist = Intent.generate) ∧
    (art = true → rPat (prompt.trim.toLower) = false →
      (hasHistory hist && fPat (prompt.trim.toLower)) = false →
      gPat (prompt.trim.toLower) = false →
      classify_intent rPat fPat gPat prompt art hist =
        (if hasHistory hist then Intent.refine else Intent.generate)) := by
  refine ⟨?_, ?_, ?_, ?_, ?_⟩
  · intro h; subst h; simp [classify_intent]
  · intro h hr; subst h; simp [classify_intent, hr]
  · intro h hr hh hf; subst h; simp [classify_intent, hr, hh, hf]
  · intro h hr hhf hg; subst h; simp [classify_intent, hr, hhf, hg]
  · intro h hr hhf hg; subst h
    by_cases hh : hasHistory hist = true
    · simp [classify_intent, hr, hhf, hg, hh]
    · simp at hh
      simp [classify_intent, hr, hhf, hg, hh]

/-- Witness for C9: an artifact exists, no pattern fires, and one prior
message makes the default REFINE. -/
theorem c9_classify_intent_cascade_witness :
    classify_intent (fun _ => false) (fun _ => false) (fun _ => false)
      "hello" true (some [{ role := "user", content := "hi" }]) = Intent.refine := by
  have h := (c9_classify_intent_cascade (fun _ => false) (fun _ => false) (fun _ => false)
    "hello" true (some [{ role := "user", content := "hi" }])).2.2.2.2
    rfl rfl (by decide) rfl
  simpa using h

/-! ### Claim C10 -/

/-- C10: an unregistered model id yields the empty fallback chain (the
unknown start id itself is not included), so spec generation started
from an unregistered (non-empty) id fails immediately with the
exhausted-chain error, independently of the per-model attempt oracle —
no model is ever attempted.  (An empty-string id is replaced by the
default model by `model_id or DEFAULT_MODEL` before the chain is
computed.) -/
theorem c10_unknown_model_empty_chain (model_id : String)
    (hunk : getModel model_id = none) :
    get_fallback_chain model_id = [] ∧
    (¬ model_id = "" → ∀ (σ : Type) (tryModel : String → Except String σ),
      generate_spec_from_prompt tryModel (some model_id) =
        GenOutcome.allModelsFailed none) := by
  have hchain : get_fallback_chain model_id = [] := by
    unfold get_fallback_chain
    rw [show MODELS.length + 1 = 3 + 1 from rfl, chainLoop_succ]
    by_cases h0 : model_id = ""
    · rw [if_pos h0]
    · rw [if_neg h0, if_neg (by simp), hunk]
  refine ⟨hchain, ?_⟩
  intro hne σ tryModel
  unfold generate_spec_from_prompt
  simp only [if_neg hne]
  rw [hchain]
  rfl

/-- Witness for C10: starting from the id `not-a-model` the chain is
empty and generation fails with the exhausted-chain error without
consulting the attempt oracle. -/
theorem c10_unknown_model_empty_chain_witness :
    get_fallback_chain "not-a-model" = [] ∧
    generate_spec_from_prompt (fun _ => (Except.error "boom" : Except String Nat))
      (some "not-a-model") = GenOutcome.allModelsFailed none :=
  ⟨(c10_unknown_model_empty_chain "not-a-model" (by decide)).1,
   (c10_unknown_model_empty_chain "not-a-model" (by decide)).2 (by decide) Nat
     (fun _ => (Except.error "boom" : Except String Nat))⟩

/-! ### Spec-review lemmas -/

theorem dupFieldErrors_eq_nil (ename : String) :
    ∀ (fields : List FieldSpec) (seen : List String),
      dupFieldErrors ename fields seen = [] ↔
        ((fields.map FieldSpec.name).Nodup ∧ ∀ f ∈ fields, f.name ∉ seen) := by
  intro fields
  induction fields with
  | nil => intro seen; simp [dupFieldErrors]
  | cons f fs ih =>
    intro seen
    by_cases hf : f.name ∈ seen
    · simp only [dupFieldErrors, if_pos hf]
      constructor
      · intro h; simp at h
      · rintro ⟨_, hall⟩
        exact absurd hf (hall f (List.mem_cons_self f fs))
    · simp only [dupFieldErrors, if_neg hf, List.nil_append, ih, List.map_cons,
        List.nodup_cons]
      constructor
      · rintro ⟨hnd, hall⟩
        refine ⟨⟨?_, hnd⟩, ?_⟩
        · rw [List.mem_map]
          rintro ⟨g, hg, hge⟩
          have := hall g hg
          simp only [List.mem_cons] at this
          exact this (Or.inl hge)
        · intro g hg
          rcases List.mem_cons.mp hg with hg | hg
          · subst hg; exact hf
          · intro hseen
            have := hall g hg
            simp only [List.mem_cons] at this
            exact this (Or.inr hseen)
      · rintro ⟨⟨hnm, hnd⟩, hall⟩
        refine ⟨hnd, ?_⟩
        intro g hg
        simp only [List.mem_cons]
        rintro (hge | hgseen)
        · exact hnm (List.mem_map.mpr ⟨g, hg, hge⟩)
        · exact hall g (List.mem_cons_of_mem f hg) hgseen

theorem nullablePkErrors_eq_nil (e : EntitySpec) :
    nullablePkErrors e = [] ↔
      ∀ f ∈ e.fields, f.primary_key = true → f.nullable = false := by
  unfold nullablePkErrors
  rw [List.map_eq_nil_iff, List.filter_eq_nil_iff]
  constructor
  · intro h f hf hpk
    have := h f (List.mem_filter.mpr ⟨hf, hpk⟩)
    simpa using this
  · intro h f hf
    obtain ⟨hmem, hpk⟩ := List.mem_filter.mp hf
    simp [h f hmem hpk]

theorem authErrors_eq_nil (s : BackendSpec) :
    authErrors s = [] ↔
      (s.auth.enabled = true → ∀ e ∈ s.entities, ¬ e.table_name = "user_accounts") := by
  unfold authErrors
  by_cases h : s.auth.enabled
  · rw [if_pos h]
    rw [List.map_eq_nil_iff, List.filter_eq_nil_iff]
    constructor
    · intro hall _ e he
      simpa using hall e he
    · intro hall e he
      simpa using hall h e he
  · rw [if_neg h]
    simp [h]

theorem reviewErrors_eq_nil (s : BackendSpec) :
    reviewErrors s = [] ↔
      ((∀ e ∈ s.entities, (e.fields.map FieldSpec.name).Nodup) ∧
       (∀ e ∈ s.entities, ∀ f ∈ e.fields, f.primary_key = true → f.nullable = false) ∧
       (s.auth.enabled = true → ∀ e ∈ s.entities, ¬ e.table_name = "user_accounts")) := by
  unfold reviewErrors
  rw [List.append_eq_nil, List.flatten_eq_nil_iff, authErrors_eq_nil]
  constructor
  · rintro ⟨hent, hauth⟩
    refine ⟨?_, ?_, hauth⟩
    · intro e he
      have h := hent (entityErrors e) (List.mem_map_of_mem entityErrors he)
      unfold entityErrors at h
      rw [List.append_eq_nil] at h
      exact ((dupFieldErrors_eq_nil e.name e.fields []).mp h.1).1
    · intro e he
      have h := hent (entityErrors e) (List.mem_map_of_mem entityErrors he)
      unfold entityErrors at h
      rw [List.append_eq_nil] at h
      exact (nullablePkErrors_eq_nil e).mp h.2
  · rintro ⟨hnd, hpk, hauth⟩
    refine ⟨?_, hauth⟩
    intro l hl
    rw [List.mem_map] at hl
    obtain ⟨e, he, rfl⟩ := hl
    unfold entityErrors
    rw [List.append_eq_nil]
    exact ⟨(dupFieldErrors_eq_nil e.name e.fields []).mpr ⟨hnd e he, by simp⟩,
           (nullablePkErrors_eq_nil e).mpr (hpk e he)⟩

theorem review_spec_valid_iff (s : BackendSpec) :
    (review_spec s).valid = true ↔ reviewErrors s = [] := by
  by_cases h : reviewErrors s = [] <;> simp [review_spec, h]

theorem review_spec_errors_iff (s : BackendSpec) :
    (review_spec s).errors = [] ↔ reviewErrors s = [] := by
  by_cases h : reviewErrors s = [] <;> simp [review_spec, h]

theorem review_spec_warnings (s : BackendSpec) :
    (review_spec s).warnings = reviewWarnings s := by
  by_cases h : reviewErrors s = [] <;> simp [review_spec, h]

/-! ### Claim C5 -/

/-- C5: for every structurally valid spec, `review_spec` reports
`valid = true` exactly when its error list is empty, and an error is
produced exactly when some entity has a duplicate field name, some
primary-key field is nullable, or auth is enabled and an entity uses
the reserved auth users table name; reserved-word field names (outside
`id`) only add warnings and never make `valid` false. -/
theorem c5_review_valid_iff_no_errors (s : BackendSpec)
    (_hs : backendSpecValid s = true) :
    ((review_spec s).valid = true ↔ (review_spec s).errors = []) ∧
    ((review_spec s).valid = true ↔
      ((∀ e ∈ s.entities, (e.fields.map FieldSpec.name).Nodup) ∧
       (∀ e ∈ s.entities, ∀ f ∈ e.fields, f.primary_key = true → f.nullable = false) ∧
       (s.auth.enabled = true → ∀ e ∈ s.entities, ¬ e.table_name = "user_accounts"))) ∧
    ((∃ e ∈ s.entities, ∃ f ∈ e.fields, f.name ∈ reservedNames ∧ ¬ f.name = "id") →
      ¬ (review_spec s).warnings = []) := by
  refine ⟨?_, ?_, ?_⟩
  · rw [review_spec_valid_iff, review_spec_errors_iff]
  · rw [review_spec_valid_iff, reviewErrors_eq_nil]
  · rintro ⟨e, he, f, hf, hres, hid⟩
    rw [review_spec_warnings]
    have hfw : f ∈ e.fields.filter
        (fun f => decide (f.name ∈ reservedNames) && ¬ f.name == "id") := by
      rw [List.mem_filter]
      refine ⟨hf, ?_⟩
      simp [hres, hid]
    have hw : reservedWarnMsg e.name f.name ∈ reviewWarnings s := by
      unfold reviewWarnings
      apply List.mem_append_left
      rw [List.mem_flatten]
      refine ⟨reservedWarnings e, List.mem_map_of_mem reservedWarnings he, ?_⟩
      unfold reservedWarnings
      exact List.mem_map_of_mem _ hfw
    exact List.ne_nil_of_mem hw

/-- Witness for C5 on the sample spec. -/
theorem c5_review_valid_iff_no_errors_witness :
    (review_spec sampleSpec).valid = true ↔ (review_spec sampleSpec).errors = [] :=
  (c5_review_valid_iff_no_errors sampleSpec (by decide)).1

/-! ### Claim C3 -/

/-- C3: for every spec that passed structural validation, if
`review_spec` reports `valid = true` then every entity has exactly one
primary-key field and every primary-key field is non-nullable. -/
theorem c3_review_valid_primary_key (s : BackendSpec)
    (hs : backendSpecValid s = true) (hv : (review_spec s).valid = true) :
    ∀ e ∈ s.entities,
      (e.fields.filter (fun f => f.primary_key)).length = 1 ∧
      ∀ f ∈ e.fields, f.primary_key = true → f.nullable = false := by
  have herr := (review_spec_valid_iff s).mp hv
  rw [reviewErrors_eq_nil] at herr
  intro e he
  constructor
  · unfold backendSpecValid at hs
    simp only [Bool.and_eq_true, List.all_eq_true, decide_eq_true_eq] at hs
    have hent := hs.1.1.2 e he
    unfold entitySpecValid at hent
    simp only [Bool.and_eq_true, decide_eq_true_eq] at hent
    exact hent.2
  · exact herr.2.1 e he

/-- Witness for C3 on the sample spec: its single entity has exactly
one primary-key field. -/
theorem c3_review_valid_primary_key_witness :
    (sampleEntity.fields.filter (fun f => f.primary_key)).length = 1 :=
  (c3_review_valid_primary_key sampleSpec (by decide) (by decide)
    sampleEntity (by decide)).1

/-! ### Chunking lemmas -/

theorem chunkLoop_nil (S O : Nat) (chunks : List (List Char)) (current : List Char) :
    chunkLoop S O [] chunks current =
      chunks ++ (if ¬ stripChars current = [] then [stripChars current] else []) := rfl

theorem chunkLoop_cons (S O : Nat) (para : List Char) (rest chunks : List (List Char))
    (current : List Char) :
    chunkLoop S O (para :: rest) chunks current =
      (if stripChars para = [] then chunkLoop S O rest chunks current
       else if current.length + (stripChars para).length + 2 ≤ S then
         chunkLoop S O rest chunks (joinCurrent current (stripChars para))
       else
         (if S < (stripChars para).length then
            chunkLoop S O rest
              ((chunks ++ (if ¬ current = [] then [stripChars current] else [])) ++
                oversizeSlices (stripChars para) S O) []
          else
            chunkLoop S O rest
              (chunks ++ (if ¬ current = [] then [stripChars current] else []))
              (stripChars para))) := rfl

theorem joinCurrent_length_le {current p : List Char} {S : Nat}
    (h : current.length + p.length + 2 ≤ S) : (joinCurrent current p).length ≤ S := by
  unfold joinCurrent
  by_cases hc : current = []
  · rw [if_pos hc]
    omega
  · rw [if_neg hc]
    simp only [List.length_append, List.length_cons, List.length_nil]
    omega

theorem oversizeSlices_length_le (p : List Char) (S O : Nat) :
    ∀ c ∈ oversizeSlices p S O, c.length ≤ S := by
  intro c hc
  unfold oversizeSlices at hc
  rw [List.mem_map] at hc
  obtain ⟨i, _, rfl⟩ := hc
  calc (stripChars ((p.drop i).take S)).length
      ≤ ((p.drop i).take S).length := stripChars_length_le _
    _ ≤ S := List.length_take_le _ _

theorem chunkLoop_length_le (S O : Nat) :
    ∀ (paras chunks : List (List Char)) (current : List Char),
      (∀ c ∈ chunks, c.length ≤ S) → current.length ≤ S →
      ∀ c ∈ chunkLoop S O paras chunks current, c.length ≤ S := by
  intro paras
  induction paras with
  | nil =>
    intro chunks current hch hcur c hc
    rw [chunkLoop_nil] at hc
    rcases List.mem_append.mp hc with h | h
    · exact hch c h
    · by_cases hs : stripChars current = []
      · simp [hs] at h
      · simp only [hs, not_false_iff, if_true, List.mem_singleton] at h
        subst h
        exact le_trans (stripChars_length_le current) hcur
  | cons para rest ih =>
    intro chunks current hch hcur c hc
    rw [chunkLoop_cons] at hc
    by_cases hp0 : stripChars para = []
    · rw [if_pos hp0] at hc
      exact ih chunks current hch hcur c hc
    · rw [if_neg hp0] at hc
      by_cases hfit : current.length + (stripChars para).length + 2 ≤ S
      · rw [if_pos hfit] at hc
        exact ih chunks _ hch (joinCurrent_length_le hfit) c hc
      · rw [if_neg hfit] at hc
        have hflush : ∀ d ∈ chunks ++ (if ¬ current = [] then [stripChars current] else []),
            d.length ≤ S := by
          intro d hd
          rcases List.mem_append.mp hd with h | h
          · exact hch d h
          · by_cases hcz : current = []
            · simp [hcz] at h
            · simp only [hcz, not_false_iff, if_true, List.mem_singleton] at h
              subst h
              exact le_trans (stripChars_length_le current) hcur
        by_cases hbig : S < (stripChars para).length
        · rw [if_pos hbig] at hc
          apply ih _ [] ?_ (by simp) c hc
          intro d hd
          rcases List.mem_append.mp hd with h | h
          · exact hflush d h
          · exact oversizeSlices_length_le _ S O d h
        · rw [if_neg hbig] at hc
          exact ih _ _ hflush (by omega) c hc

/-! ### Claim C6 -/

/-- C6: for chunk size S and overlap O with O < S, every chunk returned
by `chunk_text` has at most S characters; empty or whitespace-only
input yields the empty chunk list; and a single paragraph longer than S
is sliced by character index with step S - O (the slice starts are
`range(0, len, S - O)` and each slice takes S characters). -/
theorem c6_chunk_text_bounds (S O : Nat) (_hSO : O < S) :
    (∀ t : List Char, ∀ c ∈ chunk_text t S O, c.length ≤ S) ∧
    (∀ t : List Char, stripChars t = [] → chunk_text t S O = []) ∧
    (∀ p : List Char, splitParas p = [p] → stripChars p = p → S < p.length →
      chunk_text p S O = (oversizeSlices p S O).filter (fun c => ¬ c = [])) := by
  refine ⟨?_, ?_, ?_⟩
  · intro t c hc
    unfold chunk_text at hc
    by_cases hs : stripChars t = []
    · rw [if_pos hs] at hc
      cases hc
    · rw [if_neg hs] at hc
      exact chunkLoop_length_le S O (splitParas t) [] []
        (by simp) (by simp) c (List.mem_filter.mp hc).1
  · intro t hs
    unfold chunk_text
    rw [if_pos hs]
  · intro p hsplit hstrip hlen
    have hne : ¬ stripChars p = [] := by
      rw [hstrip]
      intro h
      rw [h] at hlen
      simp at hlen
    have hp0 : ¬ p = [] := by rw [hstrip] at hne; exact hne
    unfold chunk_text
    rw [if_neg hne, hsplit, chunkLoop_cons, hstrip]
    rw [if_neg hp0, if_neg (by simp; omega), if_pos hlen]
    rw [chunkLoop_nil]
    simp [stripChars_nil]

/-- Witness for C6: an eight-character paragraph with S = 5, O = 2 is
sliced at starts 0, 3, 6. -/
theorem c6_chunk_text_bounds_witness :
    chunk_text "abcdefgh".toList 5 2 =
      (oversizeSlices "abcdefgh".toList 5 2).filter (fun c => ¬ c = []) :=
  (c6_chunk_text_bounds 5 2 (by decide)).2.2 "abcdefgh".toList
    (by decide) (by decide) (by decide)

/-! ### Traceback-scanner lemmas -/

theorem frameMatchAt_not_F {c : Char} (cs : List Char) (h : ¬ c = 'F') :
    frameMatchAt (c :: cs) = none := by
  have hs : startsWithChars "File \"".toList (c :: cs) = false := by
    rw [show "File \"".toList = 'F' :: "ile \"".toList from rfl]
    simp only [startsWithChars]
    rw [beq_eq_false_iff_ne.mpr (fun he => h he.symm), Bool.false_and]
  unfold frameMatchAt
  rw [hs]
  simp

theorem frameScanAux_succ_cons (fuel : Nat) (c : Char) (cs : List Char) :
    frameScanAux (fuel + 1) (c :: cs) =
      (match frameMatchAt (c :: cs) with
       | some (g, n, k) => (g, n) :: frameScanAux fuel ((c :: cs).drop (max k 1))
       | none => frameScanAux fuel cs) := rfl

theorem frameScanAux_append_no_F :
    ∀ (pre l : List Char), (∀ c ∈ pre, ¬ c = 'F') →
      frameScanAux (pre.length + l.length) (pre ++ l) = frameScanAux l.length l := by
  intro pre
  induction pre with
  | nil => intro l _; simp
  | cons c pre' ih =>
    intro l hpre
    have hc : ¬ c = 'F' := hpre c (List.mem_cons_self c pre')
    have hlen : (c :: pre').length + l.length = (pre'.length + l.length) + 1 := by
      simp [List.length_cons]
      omega
    rw [hlen, List.cons_append, frameScanAux_succ_cons, frameMatchAt_not_F _ hc]
    exact ih l (fun d hd => hpre d (List.mem_cons_of_mem c hd))

theorem frameScan_append_no_F (pre l : List Char) (hpre : ∀ c ∈ pre, ¬ c = 'F') :
    frameScan (pre ++ l) = frameScan l := by
  unfold frameScan
  rw [List.length_append]
  exact frameScanAux_append_no_F pre l hpre

theorem errorMatchAt_skip {kinds : List (List Char)} {c : Char} (cs : List Char)
    (hne : ∀ k ∈ kinds, ¬ k = [])
    (hhead : ∀ k ∈ kinds, ¬ k.head? = some c) :
    errorMatchAt kinds (c :: cs) = none := by
  have hf : kinds.find? (fun k => startsWithChars k (c :: cs)) = none := by
    rw [List.find?_eq_none]
    intro k hk
    cases k with
    | nil => exact absurd rfl (hne [] hk)
    | cons kh kt =>
      have hkc : ¬ kh = c := by
        intro he
        exact hhead (kh :: kt) hk (by simp [he])
      simp [startsWithChars, beq_eq_false_iff_ne.mpr hkc]
  unfold errorMatchAt
  rw [hf]

theorem errorScan_cons_skip {kinds : List (List Char)} {c : Char} (cs : List Char)
    (hne : ∀ k ∈ kinds, ¬ k = [])
    (hhead : ∀ k ∈ kinds, ¬ k.head? = some c) :
    errorScan kinds (c :: cs) = errorScan kinds cs := by
  show (match errorMatchAt kinds (c :: cs) with
        | some r => some r
        | none => errorScan kinds cs) = errorScan kinds cs
  rw [errorMatchAt_skip cs hne hhead]

theorem errorScan_append_skip (kinds : List (List Char)) :
    ∀ (pre l : List Char), (∀ k ∈ kinds, ¬ k = []) →
      (∀ c ∈ pre, ∀ k ∈ kinds, ¬ k.head? = some c) →
      errorScan kinds (pre ++ l) = errorScan kinds l := by
  intro pre
  induction pre with
  | nil => intro l _ _; rfl
  | cons c pre' ih =>
    intro l hne hhead
    rw [List.cons_append,
      errorScan_cons_skip _ hne (hhead c (List.mem_cons_self c pre'))]
    exact ih l hne (fun d hd => hhead d (List.mem_cons_of_mem c hd))

/-! ### Claim C1 -/

/-- C1 (amended): for every sandbox run whose log tail carries exactly
one application traceback frame, naming `app/models.py` line 4, and a
`NameError` header (the startup scenario of end-to-end scenario 5), the
sandbox report records `error_file_path = "app/models.py"`,
`error_line = 4` and a `traceback_summary` starting with `NameError:`,
and patch-request construction emits exactly two patch requests — the
first targeting `app/models.py`, the second targeting the entry point
`app/main.py` — so exactly one of them targets `app/models.py`. -/
theorem c1_sandbox_report_and_patches (log msg : List Char)
    (hframe : frameScan log = [("app/models.py".toList, 4)])
    (herrF : errorScan errorKindsFull log = some ("NameError".toList, msg))
    (herrL : errorScan errorKindsLite log = some ("NameError".toList, msg)) :
    (unhealthyReport log).error_file_path = some "app/models.py".toList ∧
    (unhealthyReport log).error_line = some 4 ∧
    startsWithChars "NameError:".toList (unhealthyReport log).traceback_summary = true ∧
    (sandboxPatchRequests (unhealthyReport log)).map FilePatchRequest.path =
      ["app/models.py".toList, "app/main.py".toList] ∧
    ((sandboxPatchRequests (unhealthyReport log)).filter
        (fun q => q.path == "app/models.py".toList)).length = 1 := by
  have hlog : ¬ log = [] := by
    intro h
    rw [h] at herrF
    simp [errorScan] at herrF
  have hfile : (unhealthyReport log).error_file_path = some "app/models.py".toList := by
    simp [unhealthyReport, hlog, hframe]
  have hline : (unhealthyReport log).error_line = some 4 := by
    simp [unhealthyReport, hlog, hframe]
  have hsum : (unhealthyReport log).traceback_summary =
      "NameError".toList ++ ": ".toList ++ stripChars msg := by
    simp [unhealthyReport, hlog, herrF]
  have hstart : startsWithChars "NameError:".toList
      (unhealthyReport log).traceback_summary = true := by
    rw [hsum]
    rfl
  have hto : (unhealthyReport log).test_output = healthFailPrefixChars ++ log := rfl
  have htne : ¬ (unhealthyReport log).test_output = [] := by
    rw [hto]
    simp [healthFailPrefixChars]
  have hscanF : frameScan ((unhealthyReport log).test_output) =
      [("app/models.py".toList, 4)] := by
    rw [hto, frameScan_append_no_F _ _ (by decide), hframe]
  have hscanE : errorScan errorKindsLite ((unhealthyReport log).test_output) =
      some ("NameError".toList, msg) := by
    rw [hto, errorScan_append_skip _ _ _ (by decide) (by decide), herrL]
  have hfail : (unhealthyReport log).failures = [] := rfl
  have hhc : (unhealthyReport log).health_check_ok = false := rfl
  have hmainne : (some "app/models.py".toList == some "app/main.py".toList) = false := by
    decide
  have hbeq1 : ("app/models.py".toList == "app/models.py".toList) = true := by decide
  have hbeq2 : ("app/main.py".toList == "app/models.py".toList) = false := by decide
  have hff : failingFiles [] = [] := rfl
  refine ⟨hfile, hline, hstart, ?_, ?_⟩
  · simp only [sandboxPatchRequests, htne, not_false_iff, if_true, hscanF, hscanE,
      List.head?_cons, Option.map_some, hfail, hhc, hmainne, hff, List.filter_nil,
      List.map_nil, List.append_nil]
    simp [List.map_cons]
  · simp only [sandboxPatchRequests, htne, not_false_iff, if_true, hscanF, hscanE,
      List.head?_cons, Option.map_some, hfail, hhc, hmainne, hff, List.filter_nil,
      List.map_nil, List.append_nil]
    simp [List.filter_cons, hbeq1, hbeq2]

set_option maxRecDepth 1000000 in
/-- C1 counterexample: on a concrete uvicorn log tail with a startup
`NameError` in `app/models.py` at line 4, the sandbox report captures
the expected structured error fields, yet patch-request construction
emits two patch requests (the traceback-targeted one and the
entry-point one), not exactly one. -/
theorem c1_sandbox_patch_counterexample :
    (unhealthyReport exampleSandboxLog).error_file_path = some "app/models.py".toList ∧
    (unhealthyReport exampleSandboxLog).error_line = some 4 ∧
    startsWithChars "NameError:".toList
      (unhealthyReport exampleSandboxLog).traceback_summary = true ∧
    ¬ (sandboxPatchRequests (unhealthyReport exampleSandboxLog)).length = 1 ∧
    (sandboxPatchRequests (unhealthyReport exampleSandboxLog)).map FilePatchRequest.path =
      ["app/models.py".toList, "app/main.py".toList] := by
  decide

set_option maxRecDepth 1000000 in
/-- Witness for C1 on the concrete log: exactly one of the emitted patch
requests targets `app/models.py`. -/
theorem c1_sandbox_report_and_patches_witness :
    ((sandboxPatchRequests (unhealthyReport exampleSandboxLog)).filter
        (fun q => q.path == "app/models.py".toList)).length = 1 :=
  (c1_sandbox_report_and_patches exampleSandboxLog
    "name \u0027Field\u0027 is not defined".toList
    (by decide) (by decide) (by decide)).2.2.2.2
